import Mathlib

/-!
Verification of the Healthcare Dashboard data-preparation pipeline
(`src/data/prepare_data.py`) against its natural-language specification.

The Python source is a sequence of step functions (`load_raw_data`,
`clean_and_standardize_data`, `aggregate_state_level_data`,
`calculate_national_trends`, `perform_correlation_analysis`,
`validate_data_quality`, ...) that print descriptive text; apart from
`load_raw_data`, which returns a fixed schema dictionary, every step
function falls through and returns `None`.  We embed the Python value
domain as `PyVal` and each source function as a pure map on `PyVal`
(printing to stdout is presentation, not part of the returned value).

The pipeline logic the specification describes (Validator, Cleaner,
StateAggregator, TrendCalculator, CorrelationEngine, QualityGate) has no
executable implementation in the repository; for the claims about that
logic we model the missing components from the specification's words,
each such definition carrying a doc comment starting
`Modelled from the spec:`.
-/

/-- Embedding of the dynamic Python value domain: the source functions
receive and return untyped Python values (`None`, strings, ints, lists,
dictionaries with string keys). -/
inductive PyVal where
  | none : PyVal
  | str : String → PyVal
  | int : Int → PyVal
  | list : List PyVal → PyVal
  | dict : List (String × PyVal) → PyVal

/-- Embedding of `load_raw_data` (src/data/prepare_data.py:32-82): after
printing, it returns the literal `raw_data_schema` dictionary with the
three keys `columns`, `expected_rows`, `data_sources`. -/
def load_raw_data : PyVal :=
  PyVal.dict
    [ ("columns", PyVal.list
        [ PyVal.str "year",
          PyVal.str "state",
          PyVal.str "diabetes_percentage",
          PyVal.str "obesity_percentage",
          PyVal.str "heart_disease_percentage",
          PyVal.str "physical_inactivity_percentage",
          PyVal.str "population",
          PyVal.str "age_group",
          PyVal.str "race_ethnicity",
          PyVal.str "income_level",
          PyVal.str "sample_size" ]),
      ("expected_rows", PyVal.str "50 states × 10 years × multiple demographic groups"),
      ("data_sources", PyVal.list
        [ PyVal.str "CDC BRFSS (https://www.cdc.gov/brfss/)",
          PyVal.str "CDC NHIS (https://www.cdc.gov/nchs/nhis/)",
          PyVal.str "U.S. Census Bureau (population estimates)" ]) ]

/-- Embedding of `clean_and_standardize_data(df_raw)`
(src/data/prepare_data.py:89-143): the body only prints; there is no
`return` statement, so the function returns `None` for every input. -/
def clean_and_standardize_data (_df_raw : PyVal) : PyVal := PyVal.none

/-- Embedding of `aggregate_state_level_data(df_cleaned)`
(src/data/prepare_data.py:150-199): print-only body, returns `None`. -/
def aggregate_state_level_data (_df_cleaned : PyVal) : PyVal := PyVal.none

/-- Embedding of `calculate_national_trends(df_cleaned)`
(src/data/prepare_data.py:206-279): print-only body, returns `None`. -/
def calculate_national_trends (_df_cleaned : PyVal) : PyVal := PyVal.none

/-- Embedding of `perform_correlation_analysis(df_cleaned)`
(src/data/prepare_data.py:353-401): print-only body, returns `None`. -/
def perform_correlation_analysis (_df_cleaned : PyVal) : PyVal := PyVal.none

/-- Keys of a `PyVal.dict`, in order; `[]` for non-dict values. -/
def PyVal.dictKeys : PyVal → List String
  | PyVal.dict entries => entries.map Prod.fst
  | _ => []

/-- Lookup of a key in a `PyVal.dict`; `Option.none` for non-dict values. -/
def PyVal.dictLookup (k : String) : PyVal → Option PyVal
  | PyVal.dict entries => (entries.find? (fun e => e.fst = k)).map Prod.snd
  | _ => Option.none

/-- The 11 schema column names the claim lists, in source order. -/
def expectedColumns : List String :=
  [ "year", "state", "diabetes_percentage", "obesity_percentage",
    "heart_disease_percentage", "physical_inactivity_percentage",
    "population", "age_group", "race_ethnicity", "income_level",
    "sample_size" ]

/-- Modelled from the spec: one cleaned observation (spec §3 Record) —
the repository has no executable record type. Percentages are exact
rationals; `population` and `sample_size` are integers. -/
structure Record where
  year : Int
  state : String
  diabetes_pct : ℚ
  obesity_pct : ℚ
  heart_disease_pct : ℚ
  inactivity_pct : ℚ
  population : Int
  age_group : String
  race_ethnicity : String
  income_level : String
  sample_size : Int
deriving DecidableEq

/-- Modelled from the spec: the canonical 50-states-plus-DC set the
Validator checks membership in (spec §4.1). -/
def canonicalStates : List String :=
  [ "Alabama", "Alaska", "Arizona", "Arkansas", "California", "Colorado",
    "Connecticut", "Delaware", "District of Columbia", "Florida",
    "Georgia", "Hawaii", "Idaho", "Illinois", "Indiana", "Iowa",
    "Kansas", "Kentucky", "Louisiana", "Maine", "Maryland",
    "Massachusetts", "Michigan", "Minnesota", "Mississippi", "Missouri",
    "Montana", "Nebraska", "Nevada", "New Hampshire", "New Jersey",
    "New Mexico", "New York", "North Carolina", "North Dakota", "Ohio",
    "Oklahoma", "Oregon", "Pennsylvania", "Rhode Island",
    "South Carolina", "South Dakota", "Tennessee", "Texas", "Utah",
    "Vermont", "Virginia", "Washington", "West Virginia", "Wisconsin",
    "Wyoming" ]

/-- Modelled from the spec: the Validator's per-row check (spec §4.1) —
year within the configured 2015–2024 range, state in the canonical set,
every percentage in [0,100], population and sample_size positive. The
repository's `clean_and_standardize_data` only documents these checks. -/
def validRecord (r : Record) : Bool :=
  decide (2015 ≤ r.year) && decide (r.year ≤ 2024) &&
  canonicalStates.contains r.state &&
  decide (0 ≤ r.diabetes_pct) && decide (r.diabetes_pct ≤ 100) &&
  decide (0 ≤ r.obesity_pct) && decide (r.obesity_pct ≤ 100) &&
  decide (0 ≤ r.heart_disease_pct) && decide (r.heart_disease_pct ≤ 100) &&
  decide (0 ≤ r.inactivity_pct) && decide (r.inactivity_pct ≤ 100) &&
  decide (0 < r.population) && decide (0 < r.sample_size)

/-- Modelled from the spec: the deduplication key — rows with identical
(year, state, age_group, race_ethnicity, income_level) collapse to one
(spec §4.2). -/
def recordKey (r : Record) : Int × String × String × String × String :=
  (r.year, r.state, r.age_group, r.race_ethnicity, r.income_level)

/-- Modelled from the spec: of two rows with the same key, keep the one
with the larger sample_size (spec §4.2). -/
def keepBetter (a b : Record) : Record :=
  if a.sample_size < b.sample_size then b else a

/-- Modelled from the spec: fold step of the Cleaner's deduplication —
merge one row into the accumulated deduplicated list. -/
def insertDedup (acc : List Record) (r : Record) : List Record :=
  if acc.any (fun a => decide (recordKey a = recordKey r)) then
    acc.map (fun a => if recordKey a = recordKey r then keepBetter a r else a)
  else acc ++ [r]

/-- Modelled from the spec: the Cleaner's deduplication pass (spec §4.2).
The Cleaner's normalization and outlier-removal passes (which rewrite
categorical strings or drop rows, leaving numeric fields untouched) are
not modelled; no pass is implemented in the repository. -/
def dedup (rows : List Record) : List Record := rows.foldl insertDedup []

/-- Modelled from the spec: Validator followed by Cleaner deduplication —
the cleaned record set the downstream stages consume (spec §2 control
flow raw rows → Validator → Cleaner). -/
def validateAndClean (rows : List Record) : List Record :=
  dedup (rows.filter validRecord)

/-- Modelled from the spec: arithmetic mean of a group of metric values
(spec §4.3); an empty group has no mean (InsufficientData, spec §7). -/
def mean (xs : List ℚ) : Option ℚ :=
  if xs.isEmpty then Option.none else Option.some (xs.sum / xs.length)

/-- Modelled from the spec: sample variance with N−1 denominator
(spec §4.3); undefined on groups of fewer than two points. -/
def sampleVariance (xs : List ℚ) : Option ℚ :=
  if xs.length < 2 then Option.none
  else Option.some
    ((xs.map (fun x => (x - xs.sum / xs.length) ^ 2)).sum / (xs.length - 1))

/-- Modelled from the spec: sample standard deviation — square root of
the sample variance (spec §4.3); a single-point group has none. -/
noncomputable def sampleStddev (xs : List ℚ) : Option ℝ :=
  (sampleVariance xs).map (fun v => Real.sqrt (v : ℝ))

/-- Modelled from the spec: the per-state group of one metric's values
that the StateAggregator summarises — records restricted to one state,
projected to the metric (spec §4.3). -/
def stateValues (f : Record → ℚ) (st : String) (rows : List Record) :
    List ℚ :=
  (rows.filter (fun r => decide (r.state = st))).map f

/-- Modelled from the spec: the TrendCalculator's population-weighted
national average of one metric for one year,
Σ(value·population)/Σ(population) over all rows of that year (spec
§4.4); undefined when the year contributes no population. -/
def weightedNationalAvg (f : Record → ℚ) (y : Int) (rows : List Record) :
    Option ℚ :=
  let g := rows.filter (fun r => decide (r.year = y))
  let totPop : Int := (g.map (fun r => r.population)).sum
  if totPop = 0 then Option.none
  else Option.some ((g.map (fun r => f r * (r.population : ℚ))).sum / (totPop : ℚ))

/-- Modelled from the spec: compound annual growth rate over the full
span, (end/start)^(1/(years−1)) − 1, undefined if start ≤ 0 or fewer
than 2 years are present (spec §4.4); real-number arithmetic models the
floating-point computation. -/
noncomputable def calculate_CAGR (start finish : ℝ) (years : ℕ) : Option ℝ :=
  if start ≤ 0 ∨ years < 2 then Option.none
  else Option.some ((finish / start) ^ ((1 : ℝ) / ((years : ℝ) - 1)) - 1)

/-- Modelled from the spec: one year-over-year step — percent change
from prev to curr, null when prev = 0 (spec §4.4). -/
def yoyStep (prev curr : ℚ) : Option ℚ :=
  if prev = 0 then Option.none else Option.some ((curr - prev) / prev * 100)

/-- Modelled from the spec: year-over-year steps along the rest of a
series, carrying the previous year's value. -/
def yoyAux (prev : ℚ) : List ℚ → List (Option ℚ)
  | [] => []
  | c :: rest => yoyStep prev c :: yoyAux c rest

/-- Modelled from the spec: the TrendCalculator's year-over-year
percent-change column over an ordered national series — null for the
first year, then (curr − prev)/prev × 100 with null whenever prev = 0;
a total function, never raising (spec §4.4, §7). -/
def yoyChanges : List ℚ → List (Option ℚ)
  | [] => []
  | c :: rest => Option.none :: yoyAux c rest

/-- Modelled from the spec: mean of a real-valued metric series used by
the CorrelationEngine (spec §4.6). -/
noncomputable def meanR (xs : List ℝ) : ℝ := xs.sum / xs.length

/-- Modelled from the spec: sample covariance (N−1 denominator) of two
metric series (spec §4.6). -/
noncomputable def covar (xs ys : List ℝ) : ℝ :=
  ((xs.zip ys).map (fun p => (p.1 - meanR xs) * (p.2 - meanR ys))).sum /
    ((xs.length : ℝ) - 1)

/-- Modelled from the spec: sample variance of a real metric series. -/
noncomputable def varR (xs : List ℝ) : ℝ := covar xs xs

/-- Modelled from the spec: sample standard deviation of a real metric
series. -/
noncomputable def stddevR (xs : List ℝ) : ℝ := Real.sqrt (varR xs)

/-- Modelled from the spec: the CorrelationEngine's Pearson correlation
coefficient — covariance divided by the product of the standard
deviations; marked insufficient (none) below 3 data points or on
mismatched series lengths (spec §4.6). -/
noncomputable def pearson (xs ys : List ℝ) : Option ℝ :=
  if xs.length < 3 ∨ ys.length ≠ xs.length then Option.none
  else Option.some (covar xs ys / (stddevR xs * stddevR ys))

/-- Modelled from the spec: the metadata block the QualityGate attaches
to the pipeline run (spec §6). -/
structure QualityMetadata where
  degraded : Bool
  rejected_row_count : Nat
  processed_row_count : Nat
deriving DecidableEq

/-- Modelled from the spec: the configured rejection-rate threshold,
default 5% (spec §4.7). -/
def defaultThreshold : ℚ := 5 / 100

/-- Modelled from the spec: Validator/Cleaner rejection rate — rejected
rows over total input rows (spec §4.7). -/
def rejectionRate (rejected total : Nat) : ℚ :=
  (rejected : ℚ) / (total : ℚ)

/-- Modelled from the spec: the QualityGate marks the run degraded
exactly when the rejection rate exceeds the threshold; it always
completes with a metadata block rather than failing the run (spec
§4.7). -/
def qualityGate (rejected total : Nat) : QualityMetadata :=
  ⟨decide (defaultThreshold < rejectionRate rejected total), rejected,
   total - rejected⟩

/-- Modelled from the spec: the exported output carrying the pipeline
payload and the propagated quality metadata (spec §6). -/
structure ExportedOutput where
  states : List Record
  metadata : QualityMetadata
deriving DecidableEq

/-- Modelled from the spec: the export adapter consumes the pipeline's
final result and copies the QualityGate metadata into the exported
output's metadata block (spec §4.7, §6). -/
def exportOutput (cleaned : List Record) (rejected total : Nat) :
    ExportedOutput :=
  ⟨cleaned, qualityGate rejected total⟩

/-- A concrete record (year 2020, Alaska) used to witness the
equal-population weighted-average theorem. -/
def equalPopRecordA : Record :=
  ⟨2020, "Alaska", 20, 30, 5, 25, 1000000, "45-54", "Hispanic",
   "$25,000-$49,999", 600⟩

/-- A second concrete record of the same year and population, different
state, used to witness the equal-population weighted-average theorem. -/
def equalPopRecordB : Record :=
  ⟨2020, "Arizona", 10, 28, 4, 22, 1000000, "55-64", "Hispanic",
   "$25,000-$49,999", 700⟩

/-- C9: each pipeline stage function's return value is independent of its
input: for any two Python inputs `x` and `y` (`None` included),
`clean_and_standardize_data`, `aggregate_state_level_data`,
`calculate_national_trends` and `perform_correlation_analysis` return the
same value (`None`) on `x` as on `y` — no computed result depends on the
supplied dataset. -/
theorem stage_functions_constant (x y : PyVal) :
    clean_and_standardize_data x = clean_and_standardize_data y ∧
    aggregate_state_level_data x = aggregate_state_level_data y ∧
    calculate_national_trends x = calculate_national_trends y ∧
    perform_correlation_analysis x = perform_correlation_analysis y ∧
    clean_and_standardize_data x = PyVal.none ∧
    aggregate_state_level_data x = PyVal.none ∧
    calculate_national_trends x = PyVal.none ∧
    perform_correlation_analysis x = PyVal.none :=
  ⟨rfl, rfl, rfl, rfl, rfl, rfl, rfl, rfl⟩

/-- C10: `load_raw_data` is a constant returning the fixed schema
dictionary: its `columns` entry is exactly the list of the 11 field
names, its keys are exactly `columns`, `expected_rows`, `data_sources`
(so it carries no data rows), and the `columns` list has length 11. -/
theorem load_raw_data_fixed_schema :
    load_raw_data.dictLookup "columns" =
      Option.some (PyVal.list (expectedColumns.map PyVal.str)) ∧
    load_raw_data.dictKeys = ["columns", "expected_rows", "data_sources"] ∧
    expectedColumns.length = 11 :=
  ⟨rfl, rfl, rfl⟩

theorem recordKey_keepBetter (a b : Record) (h : recordKey a = recordKey b) :
    recordKey (keepBetter a b) = recordKey a := by
  unfold keepBetter
  split
  · exact h.symm
  · rfl

theorem mem_insertDedup {x r : Record} {acc : List Record}
    (h : x ∈ insertDedup acc r) : x ∈ acc ∨ x = r := by
  unfold insertDedup at h
  split at h
  · rcases List.mem_map.mp h with ⟨a, ha, hx⟩
    rw [← hx]
    by_cases hk : recordKey a = recordKey r
    · rw [if_pos hk]
      unfold keepBetter
      by_cases hs : a.sample_size < r.sample_size
      · rw [if_pos hs]; exact Or.inr rfl
      · rw [if_neg hs]; exact Or.inl ha
    · rw [if_neg hk]; exact Or.inl ha
  · rcases List.mem_append.mp h with h1 | h1
    · exact Or.inl h1
    · exact Or.inr (List.mem_singleton.mp h1)

theorem mem_foldl_insertDedup {x : Record} (rows : List Record) :
    ∀ acc, x ∈ rows.foldl insertDedup acc → x ∈ acc ∨ x ∈ rows := by
  induction rows with
  | nil => intro acc h; exact Or.inl h
  | cons r rest ih =>
      intro acc h
      rw [List.foldl_cons] at h
      rcases ih (insertDedup acc r) h with h1 | h1
      · rcases mem_insertDedup h1 with h2 | h2
        · exact Or.inl h2
        · exact Or.inr (by rw [h2]; exact List.mem_cons_self r rest)
      · exact Or.inr (List.mem_cons_of_mem r h1)

theorem mem_dedup {x : Record} {rows : List Record} (h : x ∈ dedup rows) :
    x ∈ rows := by
  rcases mem_foldl_insertDedup rows [] h with h1 | h1
  · exact absurd h1 (List.not_mem_nil x)
  · exact h1

theorem keys_insertDedup (acc : List Record) (r : Record) :
    (insertDedup acc r).map recordKey =
      if acc.any (fun a => decide (recordKey a = recordKey r)) then
        acc.map recordKey
      else acc.map recordKey ++ [recordKey r] := by
  unfold insertDedup
  by_cases hc : acc.any (fun a => decide (recordKey a = recordKey r)) = true
  · rw [if_pos hc, if_pos hc, List.map_map]
    apply List.map_congr_left
    intro a _
    by_cases hk : recordKey a = recordKey r
    · simp only [Function.comp_apply, if_pos hk]
      exact recordKey_keepBetter a r hk
    · simp only [Function.comp_apply, if_neg hk]
  · rw [if_neg hc, if_neg hc, List.map_append]
    rfl

theorem nodup_keys_insertDedup {acc : List Record} (r : Record)
    (h : (acc.map recordKey).Nodup) :
    ((insertDedup acc r).map recordKey).Nodup := by
  rw [keys_insertDedup]
  by_cases hc : acc.any (fun a => decide (recordKey a = recordKey r)) = true
  · rw [if_pos hc]; exact h
  · rw [if_neg hc]
    refine List.Nodup.append h (List.nodup_singleton _) ?_
    intro k hk1 hk2
    rcases List.mem_map.mp hk1 with ⟨a, ha, hka⟩
    have hne : recordKey a ≠ recordKey r := by
      intro heq
      exact hc (List.any_eq_true.mpr ⟨a, ha, decide_eq_true heq⟩)
    rw [List.mem_singleton] at hk2
    exact hne (by rw [hka, hk2])

theorem nodup_keys_foldl (rows : List Record) :
    ∀ acc, (acc.map recordKey).Nodup →
      ((rows.foldl insertDedup acc).map recordKey).Nodup := by
  induction rows with
  | nil => intro acc h; exact h
  | cons r rest ih =>
      intro acc h
      rw [List.foldl_cons]
      exact ih (insertDedup acc r) (nodup_keys_insertDedup r h)

theorem nodup_keys_dedup (rows : List Record) :
    ((dedup rows).map recordKey).Nodup :=
  nodup_keys_foldl rows [] (by simp)

theorem foldl_insertDedup_of_nodup (rows : List Record) :
    ∀ acc, ((acc ++ rows).map recordKey).Nodup →
      rows.foldl insertDedup acc = acc ++ rows := by
  induction rows with
  | nil => intro acc _; simp
  | cons r rest ih =>
      intro acc h
      have hnotin : recordKey r ∉ acc.map recordKey := by
        intro hmem
        rw [List.map_append] at h
        have hdis := List.disjoint_of_nodup_append h
        exact hdis hmem (by simp)
      have hc : acc.any (fun a => decide (recordKey a = recordKey r)) = false := by
        by_contra hcon
        rw [Bool.not_eq_false, List.any_eq_true] at hcon
        rcases hcon with ⟨a, ha, hka⟩
        exact hnotin (List.mem_map.mpr ⟨a, ha, of_decide_eq_true hka⟩)
      rw [List.foldl_cons]
      have hins : insertDedup acc r = acc ++ [r] := by
        unfold insertDedup
        rw [if_neg (by rw [hc]; exact Bool.false_ne_true)]
      rw [hins, ih (acc ++ [r]) (by rw [List.append_assoc]; simpa using h)]
      simp

theorem dedup_eq_self {rows : List Record}
    (h : (rows.map recordKey).Nodup) : dedup rows = rows := by
  unfold dedup
  have := foldl_insertDedup_of_nodup rows [] (by simpa using h)
  simpa using this

theorem dedup_idem (rows : List Record) : dedup (dedup rows) = dedup rows :=
  dedup_eq_self (nodup_keys_dedup rows)

/-- C1: every record surviving the Validator filter and the Cleaner
deduplication has all four metric percentages in [0,100] and a positive
population. -/
theorem cleaned_record_invariant (rows : List Record) (r : Record)
    (h : r ∈ validateAndClean rows) :
    0 ≤ r.diabetes_pct ∧ r.diabetes_pct ≤ 100 ∧
    0 ≤ r.obesity_pct ∧ r.obesity_pct ≤ 100 ∧
    0 ≤ r.heart_disease_pct ∧ r.heart_disease_pct ≤ 100 ∧
    0 ≤ r.inactivity_pct ∧ r.inactivity_pct ≤ 100 ∧
    0 < r.population := by
  have hmem := mem_dedup h
  have hval : validRecord r = true := (List.mem_filter.mp hmem).2
  unfold validRecord at hval
  simp only [Bool.and_eq_true, decide_eq_true_eq] at hval
  obtain ⟨⟨⟨⟨⟨⟨⟨⟨⟨⟨⟨⟨_, _⟩, _⟩, h4⟩, h5⟩, h6⟩, h7⟩, h8⟩, h9⟩, h10⟩, h11⟩, h12⟩, _⟩ := hval
  exact ⟨h4, h5, h6, h7, h8, h9, h10, h11, h12⟩

/-- A concrete valid record used to witness the cleaned-record invariant. -/
def witnessRecord : Record :=
  ⟨2020, "Alabama", 10, 30, 5, 25, 1000000, "45-54", "Hispanic",
   "$25,000-$49,999", 500⟩

theorem cleaned_record_invariant_witness :
    0 ≤ witnessRecord.diabetes_pct ∧ witnessRecord.diabetes_pct ≤ 100 ∧
    0 ≤ witnessRecord.obesity_pct ∧ witnessRecord.obesity_pct ≤ 100 ∧
    0 ≤ witnessRecord.heart_disease_pct ∧ witnessRecord.heart_disease_pct ≤ 100 ∧
    0 ≤ witnessRecord.inactivity_pct ∧ witnessRecord.inactivity_pct ≤ 100 ∧
    0 < witnessRecord.population :=
  cleaned_record_invariant [witnessRecord] witnessRecord (by decide)

/-- C2: the Validator-plus-Cleaner-deduplication pass is idempotent — on
its own output it returns that output unchanged, for every input record
set. -/
theorem cleaner_idempotent (rows : List Record) :
    validateAndClean (validateAndClean rows) = validateAndClean rows := by
  unfold validateAndClean
  have hfilter : (dedup (rows.filter validRecord)).filter validRecord =
      dedup (rows.filter validRecord) := by
    apply List.filter_eq_self.mpr
    intro a ha
    exact (List.mem_filter.mp (mem_dedup ha)).2
  rw [hfilter]
  exact dedup_idem _

/-- C3: for a single-state input group holding a single record, the
StateAggregator's arithmetic mean of any metric equals that record's
value exactly, and the single-point sample standard deviation is
undefined — the undefined-or-zero convention realised as undefined. -/
theorem single_record_mean_exact (f : Record → ℚ) (r : Record) :
    mean (stateValues f r.state [r]) = Option.some (f r) ∧
    sampleStddev (stateValues f r.state [r]) = Option.none := by
  have hg : stateValues f r.state [r] = [f r] := by
    simp [stateValues]
  rw [hg]
  constructor
  · simp [mean]
  · simp [sampleStddev, sampleVariance]

theorem sum_pop_const {l : List Record} {p : Int}
    (h : ∀ r ∈ l, r.population = p) :
    (l.map (fun r => r.population)).sum = l.length * p := by
  rw [List.map_congr_left h]
  simp [List.map_const', List.sum_replicate, nsmul_eq_mul]

/-- C4: when every row contributing to a year has one and the same
positive population, the TrendCalculator's population-weighted national
average for that year equals the unweighted arithmetic mean of the
contributing metric values. -/
theorem weighted_avg_equal_pop (f : Record → ℚ) (y : Int)
    (rows : List Record) (p : Int) (hp : 0 < p)
    (hpop : ∀ r ∈ rows.filter (fun r => decide (r.year = y)), r.population = p)
    (hne : rows.filter (fun r => decide (r.year = y)) ≠ []) :
    weightedNationalAvg f y rows =
      mean ((rows.filter (fun r => decide (r.year = y))).map f) := by
  unfold weightedNationalAvg
  set g := rows.filter (fun r => decide (r.year = y)) with hgdef
  have hlen : 0 < g.length := List.length_pos.mpr hne
  have hsum : (g.map (fun r => r.population)).sum = g.length * p :=
    sum_pop_const hpop
  have htot : (g.map (fun r => r.population)).sum ≠ 0 := by
    rw [hsum]
    exact mul_ne_zero (by exact_mod_cast hlen.ne') hp.ne'
  rw [if_neg htot]
  have hnum : (g.map (fun r => f r * (r.population : ℚ))).sum =
      (g.map f).sum * (p : ℚ) := by
    have hcongr : g.map (fun r => f r * (r.population : ℚ)) =
        g.map (fun r => f r * (p : ℚ)) := by
      apply List.map_congr_left
      intro a ha
      rw [hpop a ha]
    rw [hcongr, List.sum_map_mul_right]
  have hmean : mean (g.map f) =
      Option.some ((g.map f).sum / (g.map f).length) := by
    rw [mean, if_neg]
    simp only [List.isEmpty_eq_true, List.map_eq_nil_iff]
    exact hne
  rw [hnum, hmean, hsum]
  congr 1
  rw [List.length_map]
  push_cast
  rw [mul_div_mul_right _ _ (by exact_mod_cast hp.ne' : (p : ℚ) ≠ 0)]

theorem weighted_avg_equal_pop_witness :
    weightedNationalAvg (fun r => r.diabetes_pct) 2020
        [equalPopRecordA, equalPopRecordB] =
      mean (([equalPopRecordA, equalPopRecordB].filter
        (fun r => decide (r.year = 2020))).map (fun r => r.diabetes_pct)) :=
  weighted_avg_equal_pop (fun r => r.diabetes_pct) 2020
    [equalPopRecordA, equalPopRecordB] 1000000 (by decide) (by decide)
    (by decide)

/-- C5: for a series that starts positive and grows by exactly rate r per
year over at least two years, `calculate_CAGR` returns a value within
1e-9 of r (it is exactly r); and the CAGR is undefined whenever the
start is nonpositive or fewer than two years are present. -/
theorem cagr_roundtrip (start r : ℝ) (n : ℕ)
    (hs : 0 < start) (hn : 2 ≤ n) (hr : -1 < r) :
    (∃ c, calculate_CAGR start (start * (1 + r) ^ (n - 1)) n = Option.some c ∧
      |c - r| ≤ 1e-9) ∧
    (∀ s e : ℝ, ∀ m : ℕ, s ≤ 0 ∨ m < 2 → calculate_CAGR s e m = Option.none) := by
  constructor
  · refine ⟨r, ?_, by norm_num⟩
    unfold calculate_CAGR
    rw [if_neg (by push_neg; exact ⟨hs, by omega⟩)]
    congr 1
    have h1r : (0:ℝ) < 1 + r := by linarith
    rw [mul_div_cancel_left₀ _ (ne_of_gt hs)]
    rw [← Real.rpow_natCast (1 + r) (n - 1), ← Real.rpow_mul h1r.le]
    have hcast : ((n - 1 : ℕ) : ℝ) = (n : ℝ) - 1 := by
      have : 1 ≤ n := by omega
      push_cast [this]
      ring
    rw [hcast]
    have hne : (n : ℝ) - 1 ≠ 0 := by
      have h2 : (2 : ℝ) ≤ (n : ℝ) := by exact_mod_cast hn
      intro h
      linarith
    rw [mul_one_div, div_self hne, Real.rpow_one]
    ring
  · intro s e m hm
    unfold calculate_CAGR
    rw [if_pos hm]

theorem cagr_roundtrip_witness :
    (∃ c, calculate_CAGR 1 (1 * (1 + 1) ^ (2 - 1)) 2 = Option.some c ∧
      |c - 1| ≤ 1e-9) ∧
    calculate_CAGR 0 5 3 = Option.none := by
  have h := cagr_roundtrip 1 1 2 (by norm_num) (by norm_num) (by norm_num)
  exact ⟨h.1, h.2 0 5 3 (Or.inl le_rfl)⟩

theorem yoyAux_length (prev : ℚ) (s : List ℚ) :
    (yoyAux prev s).length = s.length := by
  induction s generalizing prev with
  | nil => rfl
  | cons c rest ih => simp [yoyAux, ih]

theorem yoyAux_getElem (s : List ℚ) :
    ∀ (prev p c : ℚ) (i : ℕ), s[i]? = Option.some p →
      s[i + 1]? = Option.some c →
      (yoyAux prev s)[i + 1]? = Option.some (yoyStep p c) := by
  induction s with
  | nil => intro prev p c i h1 _; simp at h1
  | cons d rest ih =>
      intro prev p c i h1 h2
      cases i with
      | zero =>
          rw [List.getElem?_cons_zero, Option.some.injEq] at h1
          rw [List.getElem?_cons_succ] at h2
          cases rest with
          | nil => simp at h2
          | cons e rest2 =>
              rw [List.getElem?_cons_zero, Option.some.injEq] at h2
              subst h1 h2
              simp [yoyAux]
      | succ j =>
          rw [List.getElem?_cons_succ] at h1 h2
          have := ih d p c j h1 h2
          simpa [yoyAux] using this

/-- C6: the year-over-year column has one entry per year of the series;
its first entry is null; and wherever the series holds consecutive
values prev and curr, the corresponding entry is null when prev = 0 and
(curr − prev)/prev × 100 otherwise — a total computation that never
raises. -/
theorem yoy_changes_spec (s : List ℚ) (i : ℕ) :
    (yoyChanges s).length = s.length ∧
    (0 < s.length → (yoyChanges s)[0]? = Option.some Option.none) ∧
    (∀ p c : ℚ, s[i]? = Option.some p → s[i + 1]? = Option.some c →
      (yoyChanges s)[i + 1]? =
        Option.some (if p = 0 then Option.none
          else Option.some ((c - p) / p * 100))) := by
  refine ⟨?_, ?_, ?_⟩
  · cases s with
    | nil => rfl
    | cons c rest => simp [yoyChanges, yoyAux_length]
  · intro hlen
    cases s with
    | nil => simp at hlen
    | cons c rest => simp [yoyChanges]
  · intro p c h1 h2
    cases s with
    | nil => simp at h1
    | cons d rest =>
        have step : (yoyChanges (d :: rest))[i + 1]? = (yoyAux d rest)[i]? := by
          simp [yoyChanges]
        cases i with
        | zero =>
            rw [List.getElem?_cons_zero, Option.some.injEq] at h1
            rw [List.getElem?_cons_succ] at h2
            cases rest with
            | nil => simp at h2
            | cons e rest2 =>
                rw [List.getElem?_cons_zero, Option.some.injEq] at h2
                subst h1 h2
                rw [step]
                simp [yoyAux, yoyStep]
        | succ j =>
            rw [List.getElem?_cons_succ] at h1 h2
            have := yoyAux_getElem rest d p c j h1 h2
            rw [step]
            simpa [yoyStep] using this

theorem yoy_changes_spec_witness :
    (yoyChanges [0, 5, 10]).length = 3 ∧
    (yoyChanges [0, 5, 10])[0]? = Option.some Option.none ∧
    (yoyChanges [0, 5, 10])[1]? = Option.some Option.none ∧
    (yoyChanges [0, 5, 10])[2]? = Option.some (Option.some 100) := by
  have h0 := yoy_changes_spec [0, 5, 10] 0
  have h1 := yoy_changes_spec [0, 5, 10] 1
  refine ⟨by simpa using h0.1, h0.2.1 (by norm_num), ?_, ?_⟩
  · have := h0.2.2 0 5 rfl rfl
    simpa using this
  · have := h1.2.2 5 10 rfl rfl
    norm_num at this
    exact this

theorem zip_self {α : Type} (xs : List α) :
    xs.zip xs = xs.map (fun x => (x, x)) := by
  induction xs with
  | nil => rfl
  | cons a l ih => simp [ih]

theorem zip_map_self {α β : Type} (g : α → β) (xs : List α) :
    xs.zip (xs.map g) = xs.map (fun x => (x, g x)) := by
  induction xs with
  | nil => rfl
  | cons a l ih => simp [ih]

theorem sum_map_neg (g : ℝ → ℝ) (xs : List ℝ) :
    (xs.map (fun x => -(g x))).sum = -(xs.map g).sum := by
  induction xs with
  | nil => simp
  | cons a l ih => simp [ih]; ring

theorem meanR_map_neg (xs : List ℝ) :
    meanR (xs.map (fun x => -x)) = -meanR xs := by
  unfold meanR
  have : (xs.map (fun x => -x)).sum = -xs.sum := by
    have := sum_map_neg (fun x => x) xs
    simpa using this
  rw [this, List.length_map, neg_div]

theorem varR_eq (xs : List ℝ) :
    varR xs =
      (xs.map (fun x => (x - meanR xs) ^ 2)).sum / ((xs.length : ℝ) - 1) := by
  unfold varR covar
  rw [zip_self, List.map_map]
  congr 1
  refine congrArg List.sum (List.map_congr_left ?_)
  intro a _
  simp only [Function.comp_apply]
  ring

theorem varR_nonneg {xs : List ℝ} (hlen : 3 ≤ xs.length) : 0 ≤ varR xs := by
  rw [varR_eq]
  apply div_nonneg
  · apply List.sum_nonneg
    intro x hx
    rcases List.mem_map.mp hx with ⟨a, _, rfl⟩
    positivity
  · have : (3:ℝ) ≤ (xs.length : ℝ) := by exact_mod_cast hlen
    linarith

theorem covar_map_neg (xs : List ℝ) :
    covar xs (xs.map (fun x => -x)) = -varR xs := by
  unfold covar
  rw [zip_map_self, List.map_map, meanR_map_neg, varR_eq, ← neg_div]
  congr 1
  rw [← sum_map_neg]
  refine congrArg List.sum (List.map_congr_left ?_)
  intro a _
  simp only [Function.comp_apply]
  ring

theorem varR_map_neg (xs : List ℝ) :
    varR (xs.map (fun x => -x)) = varR xs := by
  rw [varR_eq, varR_eq, List.length_map, meanR_map_neg, List.map_map]
  congr 1
  refine congrArg List.sum (List.map_congr_left ?_)
  intro a _
  simp only [Function.comp_apply]
  ring

theorem stddevR_map_neg (xs : List ℝ) :
    stddevR (xs.map (fun x => -x)) = stddevR xs := by
  unfold stddevR
  rw [varR_map_neg]

/-- C7 (amended): for every metric series with at least 3 data points
and nonzero sample variance, the Pearson correlation of the series with
itself is 1 and with its pointwise negation is −1. -/
theorem pearson_self_and_neg (xs : List ℝ) (hlen : 3 ≤ xs.length)
    (hvar : varR xs ≠ 0) :
    pearson xs xs = Option.some 1 ∧
    pearson xs (xs.map (fun x => -x)) = Option.some (-1) := by
  have hnonneg : 0 ≤ varR xs := varR_nonneg hlen
  have hsq : stddevR xs * stddevR xs = varR xs := Real.mul_self_sqrt hnonneg
  have hcv : covar xs xs = varR xs := rfl
  constructor
  · unfold pearson
    rw [if_neg (by push_neg; exact ⟨by omega, rfl⟩)]
    rw [hcv, hsq, div_self hvar]
  · unfold pearson
    rw [if_neg (by push_neg; refine ⟨by omega, by simp⟩)]
    rw [covar_map_neg, stddevR_map_neg, hsq, neg_div, div_self hvar]

/-- C7 fails as stated: the constant series [5,5,5] has 3 data points,
yet its Pearson correlation with itself is a 0/0 quotient, not 1 — the
claim needs the series to have nonzero variance. -/
theorem pearson_const_not_one :
    pearson [5, 5, 5] [5, 5, 5] ≠ Option.some 1 := by
  have hm : meanR [5, 5, 5] = 5 := by unfold meanR; norm_num
  have hcov : covar [5, 5, 5] [(5:ℝ), 5, 5] = 0 := by
    unfold covar
    rw [zip_self, hm]
    norm_num
  unfold pearson
  rw [if_neg (by norm_num)]
  rw [hcov, zero_div]
  norm_num

theorem pearson_self_and_neg_witness :
    pearson [1, 2, 3] [1, 2, 3] = Option.some 1 ∧
    pearson [1, 2, 3] ([1, 2, 3].map (fun x => -x)) = Option.some (-1) := by
  have hm : meanR [1, 2, 3] = 2 := by unfold meanR; norm_num
  have hvar : varR [(1:ℝ), 2, 3] ≠ 0 := by
    rw [varR_eq, hm]
    norm_num
  exact pearson_self_and_neg [1, 2, 3] (by norm_num) hvar

/-- C8: the exported output's metadata carries the QualityGate flag:
degraded is true exactly when the rejection rate exceeds the 5%
threshold; at a rate of exactly 4.99% (499 of 10000) it is false, at
exactly 5% it is false, just above (5.01%) it is true; the gate always
completes, returning the exported output with the rejection count
propagated rather than failing the run. -/
theorem quality_gate_degraded (cleaned : List Record)
    (rejected total : Nat) :
    ((exportOutput cleaned rejected total).metadata.degraded = true ↔
      defaultThreshold < rejectionRate rejected total) ∧
    (exportOutput cleaned rejected total).metadata.rejected_row_count =
      rejected ∧
    (exportOutput cleaned 499 10000).metadata.degraded = false ∧
    (exportOutput cleaned 500 10000).metadata.degraded = false ∧
    (exportOutput cleaned 501 10000).metadata.degraded = true := by
  refine ⟨?_, rfl, ?_, ?_, ?_⟩
  · simp [exportOutput, qualityGate]
  · simp only [exportOutput, qualityGate, decide_eq_false_iff_not]
    norm_num [rejectionRate, defaultThreshold]
  · simp only [exportOutput, qualityGate, decide_eq_false_iff_not]
    norm_num [rejectionRate, defaultThreshold]
  · simp only [exportOutput, qualityGate, decide_eq_true_eq]
    norm_num [rejectionRate, defaultThreshold]

theorem quality_gate_degraded_witness :
    ((exportOutput [] 6 100).metadata.degraded = true ↔
      defaultThreshold < rejectionRate 6 100) ∧
    (exportOutput [] 6 100).metadata.rejected_row_count = 6 ∧
    (exportOutput [] 499 10000).metadata.degraded = false ∧
    (exportOutput [] 500 10000).metadata.degraded = false ∧
    (exportOutput [] 501 10000).metadata.degraded = true :=
  quality_gate_degraded [] 6 100
